import Mathlib

/-!
Verification of the kyverno CLI `apply` command and the `ResourceSpec` API
types, as a shallow embedding of
`cmd/cli/kubectl-kyverno/commands/apply/command.go` and
`api/kyverno/v1/resource_spec_types.go`.

Go slices become `List`, Go `nil`-able values become `Option`, Go `error`
results become `Option`/`Except`, machine integers that only count upward
become `Nat` (the exit-code flag, a Go `int` compared with `0`, becomes
`Int`).  Calls into packages outside the embedded files
(`policy.Load`, `policyvalidation.Validate`,
`processor.ApplyPoliciesOnResource`) are abstracted as function parameters,
so the theorems hold for every behaviour of those collaborators.
-/

namespace Kyverno

/-- Result counters aggregated across a run (`processor.ResultCounts`).
Modelled from the spec: the `processor` package is not under `src/`; the spec
defines Result Counters as aggregate pass/fail/warn/error/skip counts, and
`command.go` reads the exported fields `Pass`, `Fail`, `Warn`, `Error` and
calls `IncrementError`. -/
structure ResultCounts where
  Pass : Nat
  Fail : Nat
  Warn : Nat
  Error : Nat
  Skip : Nat
deriving DecidableEq

/-- The zero value of `ResultCounts`, as produced by
`var rc processor.ResultCounts` (command.go line 306). -/
def zeroCounts : ResultCounts := ⟨0, 0, 0, 0, 0⟩

/-- Modelled from the spec: `IncrementError` adds `n` to the error counter
(`processor` package, not under `src/`; the spec's Result Counters
"increment exactly once per terminal rule status"). -/
def ResultCounts.IncrementError (rc : ResultCounts) (n : Nat) : ResultCounts :=
  { rc with Error := rc.Error + n }

/-- `WarnExitCodeError` (command.go lines 502-504): the error value carrying
the configured warning exit code. -/
structure WarnExitCodeError where
  ExitCode : Int
deriving DecidableEq

/-- The possible non-nil errors returned by `exit` (command.go lines
510-527): the two `fmt.Errorf` values and `WarnExitCodeError`. -/
inductive ApplyError where
  | policyViolations
  | policyErrors
  | warn (e : WarnExitCodeError)
deriving DecidableEq

/-- `exit` (command.go lines 510-527).  Returns `none` for a nil error. -/
def exit (rc : ResultCounts) (warnExitCode : Int) (warnNoPassed : Bool) :
    Option ApplyError :=
  if rc.Fail > 0 then some ApplyError.policyViolations
  else if rc.Error > 0 then some ApplyError.policyErrors
  else if rc.Warn > 0 ∧ warnExitCode ≠ 0 then some (ApplyError.warn ⟨warnExitCode⟩)
  else if rc.Pass = 0 ∧ warnNoPassed then some (ApplyError.warn ⟨warnExitCode⟩)
  else none

/-- Rule statuses (`engineapi.RuleStatus`).  Modelled from the spec: the
engine API package is not under `src/`; the spec fixes the five statuses
Pass/Fail/Warn/Error/Skip. -/
inductive RuleStatus where
  | pass
  | fail
  | warn
  | error
  | skip
deriving DecidableEq

/-- Rule types (`engineapi.RuleType`).  Modelled from the spec: a rule body
is exactly one of Validate, Mutate or Generate. -/
inductive RuleType where
  | mutation
  | validation
  | generation
deriving DecidableEq

/-- A rule response (`engineapi.RuleResponse`) as read by the apply command:
`Name()`, `RuleType()`, `Message()`, `Status()`.  Modelled from the spec:
each Rule Response carries rule name, rule type, status and a message. -/
structure RuleResponse where
  name : String
  ruleType : RuleType
  message : String
  status : RuleStatus
deriving DecidableEq

/-- A policy-level validation failure action (`kyvernov1`), with its
`Audit()` predicate.  Modelled from the spec: the action is either Audit or
Enforce. -/
inductive ValidationFailureAction where
  | audit
  | enforce
deriving DecidableEq

/-- The `Audit()` method on the validation failure action. -/
def ValidationFailureAction.Audit : ValidationFailureAction → Bool
  | .audit => true
  | .enforce => false

/-- An engine response (`engineapi.EngineResponse`) as read by the apply
command: the resource identity used for the printed resource path, the
policy name, the policy validation failure action and the rule responses.
Modelled from the spec: the Engine Response holds the originating Policy and
an ordered sequence of Rule Responses. -/
structure EngineResponse where
  resourceNamespace : String
  resourceKind : String
  resourceName : String
  policyName : String
  validationFailureAction : ValidationFailureAction
  rules : List RuleResponse
deriving DecidableEq

/-- The resource path printed by the apply command:
`fmt.Sprintf("%s/%s/%s", ns, kind, name)` (command.go line 101). -/
def resPath (response : EngineResponse) : String :=
  response.resourceNamespace ++ "/" ++ response.resourceKind ++ "/" ++
    response.resourceName

/-- The failed rules collected by the apply command for one response
(command.go lines 102-105): the rules whose status is Fail, in order. -/
def failedRules (response : EngineResponse) : List RuleResponse :=
  response.rules.filter (fun rule => rule.status == RuleStatus.fail)

/-- The mutate-rule lines printed while iterating one response's rules
(command.go lines 106-112): a skipped mutation rule prints a skip notice, a
mutation rule in error prints the error with the rule message.  Each
`fmt.Fprintln` becomes one output line, its arguments joined by single
spaces. -/
def mutateLine (policyName rp : String) (rule : RuleResponse) : List String :=
  if rule.ruleType == RuleType.mutation then
    if rule.status == RuleStatus.skip then
      ["\nskipped mutate policy " ++ policyName ++ " -> resource " ++ rp]
    else if rule.status == RuleStatus.error then
      ["\nerror while applying mutate policy " ++ policyName ++
        " -> resource " ++ rp ++ " \nerror:  " ++ rule.message]
    else []
  else []

/-- The mutate-rule lines over a whole rule list, in iteration order. -/
def mutateLines (policyName rp : String) : List RuleResponse → List String
  | [] => []
  | rule :: rest => mutateLine policyName rp rule ++ mutateLines policyName rp rest

/-- The numbered failed-rule lines (command.go lines 124-126):
`fmt.Fprintln(out, i+1, "-", rule.Name(), rule.Message())` for the i-th
failed rule, counting from `k`. -/
def failLines : Nat → List RuleResponse → List String
  | _, [] => []
  | k, rule :: rest =>
    (toString (k + 1) ++ " - " ++ rule.name ++ " " ++ rule.message) ::
      failLines (k + 1) rest

/-- The default-mode output of the apply command for one engine response
(command.go lines 99-129): the mutate notices emitted while scanning the
rules, then, when some rule failed, a header naming the policy and the
resource path (downgraded to an audit warning when `auditWarn` is on and the
policy action is Audit) followed by the numbered failed rules and a blank
line. -/
def printResponse (auditWarn : Bool) (response : EngineResponse) : List String :=
  let rp := resPath response
  let mut1 := mutateLines response.policyName rp response.rules
  let failed := failedRules response
  let failBlock :=
    if failed.length > 0 then
      let header :=
        if auditWarn && response.validationFailureAction.Audit then
          "policy " ++ response.policyName ++ " -> resource " ++ rp ++
            " failed as audit warning:"
        else
          "policy " ++ response.policyName ++ " -> resource " ++ rp ++ " failed:"
      (header :: failLines 0 failed) ++ [""]
    else []
  mut1 ++ failBlock

/-- A loaded policy as the apply command inspects it (`GetName`). -/
structure Policy where
  name : String
deriving DecidableEq

/-- The skipped/invalid policy name lists (command.go lines 43-46). -/
structure SkippedInvalidPolicies where
  skipped : List String
  invalid : List String
deriving DecidableEq

/-- Go `strings.HasPrefix`: `pre` is a prefix of `s`. -/
def strHasPrefix (s pre : String) : Bool :=
  pre.data.isPrefixOf s.data

/-- The error-message prefix the apply command tests to classify an invalid
policy (command.go line 316): `variable 'element.name'`. -/
def elementNameVariableMsg : String := "variable \x27element.name\x27"

/-- The load-time policy validation loop of `applyPolicytoResource`
(command.go lines 308-324).  `validate` abstracts
`policyvalidation.Validate`, returning the error message on failure.  A
failing policy increments the error counter by one and is recorded in the
`invalid` list when its error message starts with `variable 'element.name'`,
in the `skipped` list otherwise; a valid policy is appended to the valid
set. -/
def validateLoop (validate : Policy → Option String) :
    List Policy → List Policy → ResultCounts → SkippedInvalidPolicies →
      List Policy × ResultCounts × SkippedInvalidPolicies
  | acc, [], rc, skip => (acc, rc, skip)
  | acc, pol :: rest, rc, skip =>
    match validate pol with
    | some errMsg =>
      let rc1 := rc.IncrementError 1
      let skip1 :=
        if strHasPrefix errMsg elementNameVariableMsg then
          { skip with invalid := skip.invalid ++ [pol.name] }
        else
          { skip with skipped := skip.skipped ++ [pol.name] }
      validateLoop validate acc rest rc1 skip1
    | none => validateLoop validate (acc ++ [pol]) rest rc skip

/-- The per-resource application loop of `applyPolicytoResource`
(command.go lines 326-356).  `procv` abstracts
`processor.ApplyPoliciesOnResource` for the fixed valid policy set: given
the current counters and a resource it returns the engine responses or an
error, together with the updated counters (the processor mutates `rc`
through a pointer).  On error: with `continueOnFail` the resource is skipped
and the loop continues, otherwise the loop aborts returning the responses
accumulated so far and the error. -/
def applyLoopRc (continueOnFail : Bool)
    (procv : ResultCounts → String → Except String (List EngineResponse) × ResultCounts) :
    ResultCounts → List EngineResponse → List String →
      ResultCounts × List EngineResponse × Option String
  | rc, acc, [] => (rc, acc, none)
  | rc, acc, resource :: rest =>
    match procv rc resource with
    | (Except.error e, rc1) =>
      if continueOnFail then applyLoopRc continueOnFail procv rc1 acc rest
      else (rc1, acc, some e)
    | (Except.ok ers, rc1) =>
      applyLoopRc continueOnFail procv rc1 (acc ++ ers) rest

/-- `applyPolicytoResource` (command.go lines 291-363) generalized over the
initial counters: validate the policies, then apply the valid set to each
resource in turn.  `proc` abstracts the policy processor; it receives
exactly the valid policy set. -/
def applyPolicytoResourceFrom (rcInit : ResultCounts) (continueOnFail : Bool)
    (validate : Policy → Option String)
    (proc : List Policy → ResultCounts → String →
      Except String (List EngineResponse) × ResultCounts)
    (policies : List Policy) (resources : List String)
    (skip : SkippedInvalidPolicies) :
    ResultCounts × List EngineResponse × Option String × SkippedInvalidPolicies :=
  let v := validateLoop validate [] policies rcInit skip
  let a := applyLoopRc continueOnFail (proc v.1) v.2.1 [] resources
  (a.1, a.2.1, a.2.2, v.2.2)

/-- `applyPolicytoResource` (command.go lines 291-363): the counters start
from the zero value declared by `var rc processor.ResultCounts` at line
306. -/
def applyPolicytoResource (continueOnFail : Bool)
    (validate : Policy → Option String)
    (proc : List Policy → ResultCounts → String →
      Except String (List EngineResponse) × ResultCounts)
    (policies : List Policy) (resources : List String)
    (skip : SkippedInvalidPolicies) :
    ResultCounts × List EngineResponse × Option String × SkippedInvalidPolicies :=
  applyPolicytoResourceFrom zeroCounts continueOnFail validate proc policies
    resources skip

/-- Reference collector for the amended continue-on-fail statement: the
responses of every resource whose application succeeds, in order, with the
counters threaded through every call exactly as the loop threads them. -/
def collectRc
    (procv : ResultCounts → String → Except String (List EngineResponse) × ResultCounts) :
    ResultCounts → List String → ResultCounts × List EngineResponse
  | rc, [] => (rc, [])
  | rc, resource :: rest =>
    match procv rc resource with
    | (Except.error _, rc1) => collectRc procv rc1 rest
    | (Except.ok ers, rc1) =>
      let t := collectRc procv rc1 rest
      (t.1, ers ++ t.2)

/-- The per-path policy loading loop of `loadPolicies` for plain (non-git)
paths (command.go lines 418-432).  `load` abstracts `policy.Load`; a path
whose load fails is skipped (only logged) and the remaining paths are still
loaded. -/
def loadPolicies (load : String → Except String (List Policy)) :
    List String → List Policy
  | [] => []
  | path :: rest =>
    match load path with
    | Except.error _ => loadPolicies load rest
    | Except.ok pols => pols ++ loadPolicies load rest

/-- The fields of `ApplyCommandConfig` (command.go lines 48-71) read by
`checkArguments`.  `Variables` is an `Option` because Go distinguishes a nil
slice (`c.Variables != nil`). -/
structure ApplyCommandConfig where
  ValuesFile : String
  Variables : Option (List String)
  PolicyPaths : List String
  ResourcePaths : List String
  Cluster : Bool
deriving DecidableEq

/-- The four argument errors `checkArguments` can return (command.go lines
487-498). -/
inductive ArgsError where
  | valuesConflict
  | requirePolicy
  | doubleStdin
  | resourceOrClusterRequired
deriving DecidableEq

/-- The tuple returned by `checkArguments` (command.go line 485): counters,
resources, skipped/invalid lists, responses and error. -/
structure CheckArgsResult where
  rc : Option ResultCounts
  resources : Option (List String)
  skipInvalidPolicies : SkippedInvalidPolicies
  responses : Option (List EngineResponse)
  err : Option ArgsError
deriving DecidableEq

/-- `checkArguments` (command.go lines 485-500). -/
def checkArguments (c : ApplyCommandConfig) : CheckArgsResult :=
  let skip : SkippedInvalidPolicies := { skipped := [], invalid := [] }
  if c.ValuesFile ≠ "" ∧ c.Variables.isSome then
    ⟨none, none, skip, none, some ArgsError.valuesConflict⟩
  else if c.PolicyPaths.length = 0 then
    ⟨none, none, skip, none, some ArgsError.requirePolicy⟩
  else if (c.PolicyPaths.length > 0 ∧ c.PolicyPaths.headD "" = "-") ∧
      c.ResourcePaths.length > 0 ∧ c.ResourcePaths.headD "" = "-" then
    ⟨none, none, skip, none, some ArgsError.doubleStdin⟩
  else if c.ResourcePaths.length = 0 ∧ ¬ c.Cluster then
    ⟨none, none, skip, none, some ArgsError.resourceOrClusterRequired⟩
  else
    ⟨none, none, skip, none, none⟩

/-- Go `strings.Join`: concatenate the elements separated by `sep`
(empty string for the empty list). -/
def stringsJoin (elems : List String) (sep : String) : String :=
  match elems with
  | [] => ""
  | e :: rest => rest.foldl (fun acc x => acc ++ sep ++ x) e

/-- `ResourceSpec` (resource_spec_types.go lines 11-26); `types.UID` is a
string type. -/
structure ResourceSpec where
  APIVersion : String
  Kind : String
  Namespace : String
  Name : String
  UID : String
deriving DecidableEq

/-- `GetName` (resource_spec_types.go line 28). -/
def ResourceSpec.GetName (s : ResourceSpec) : String := s.Name

/-- `GetNamespace` (resource_spec_types.go line 29). -/
def ResourceSpec.GetNamespace (s : ResourceSpec) : String := s.Namespace

/-- `GetKind` (resource_spec_types.go line 30). -/
def ResourceSpec.GetKind (s : ResourceSpec) : String := s.Kind

/-- `GetAPIVersion` (resource_spec_types.go line 31). -/
def ResourceSpec.GetAPIVersion (s : ResourceSpec) : String := s.APIVersion

/-- `GetUID` (resource_spec_types.go line 32). -/
def ResourceSpec.GetUID (s : ResourceSpec) : String := s.UID

/-- `String()` (resource_spec_types.go lines 37-39):
`strings.Join([]string{APIVersion, Kind, Namespace, Name}, "/")`. -/
def ResourceSpec.string (s : ResourceSpec) : String :=
  stringsJoin [s.APIVersion, s.Kind, s.Namespace, s.Name] "/"

/-- Placeholder for the wrapped conditions value carried by
`ConditionsWrapper` (raw apiextensions JSON; its structure is irrelevant to
the claims). -/
structure Conditions where
  raw : String
deriving DecidableEq

/-- `ConditionsWrapper` holding a `Conditions` value. -/
structure ConditionsWrapper where
  value : Conditions
deriving DecidableEq

/-- `TargetResourceSpec` (resource_spec_types.go lines 42-59), restricted to
the field the embedded method reads: `RawAnyAllConditions` is a nilable
pointer, hence an `Option`. -/
structure TargetResourceSpec where
  RawAnyAllConditions : Option ConditionsWrapper
deriving DecidableEq

/-- `GetAnyAllConditions` (resource_spec_types.go lines 69-74): nil when the
raw pointer is nil, the wrapped conditions otherwise. -/
def TargetResourceSpec.GetAnyAllConditions (r : TargetResourceSpec) :
    Option Conditions :=
  match r.RawAnyAllConditions with
  | none => none
  | some w => some w.value

/-! ## Theorems -/

/-- Claim C1: the apply command's `exit` returns a non-nil error iff
`Fail > 0`, or `Error > 0`, or (`Warn > 0` and `warnExitCode ≠ 0`), or
(`Pass = 0` and `warnNoPassed` set); `Fail` and `Error` outcomes take
precedence over `Warn`, and a Warn-only run with `warnExitCode = 0` (and
`warnNoPassed` unset) returns nil. -/
theorem exit_status_spec (rc : ResultCounts) (w : Int) (np : Bool) :
    ((exit rc w np).isSome ↔
      (rc.Fail > 0 ∨ rc.Error > 0 ∨ (rc.Warn > 0 ∧ w ≠ 0) ∨ (rc.Pass = 0 ∧ np = true)))
    ∧ (rc.Fail > 0 → exit rc w np = some ApplyError.policyViolations)
    ∧ (rc.Fail = 0 → rc.Error > 0 → exit rc w np = some ApplyError.policyErrors)
    ∧ (rc.Fail = 0 → rc.Error = 0 → rc.Warn > 0 → w = 0 → np = false →
        exit rc w np = none) := by
  unfold exit
  refine ⟨?_, ?_, ?_, ?_⟩
  · split_ifs with h1 h2 h3 h4 <;> simp_all
  · intro h1
    rw [if_pos h1]
  · intro h1 h2
    rw [if_neg (by omega), if_pos h2]
  · intro h1 h2 h3 h4 h5
    subst h4 h5
    rw [if_neg (by omega), if_neg (by omega), if_neg (by simp), if_neg (by simp)]

/-- Witness for C1: concrete runs through each branch of `exit_status_spec`. -/
theorem exit_status_spec_witness :
    exit ⟨0, 1, 0, 0, 0⟩ 0 false = some ApplyError.policyViolations
    ∧ exit ⟨0, 0, 0, 1, 0⟩ 0 false = some ApplyError.policyErrors
    ∧ exit ⟨0, 0, 1, 0, 0⟩ 0 false = none :=
  ⟨(exit_status_spec ⟨0, 1, 0, 0, 0⟩ 0 false).2.1 (by decide),
   (exit_status_spec ⟨0, 0, 0, 1, 0⟩ 0 false).2.2.1 rfl (by decide),
   (exit_status_spec ⟨0, 0, 1, 0, 0⟩ 0 false).2.2.2 rfl rfl (by decide) rfl rfl⟩

/-- Claim C10: when `Fail = 0`, `Error = 0`, no triggering warnings and
`Pass = 0` with `warnNoPassed` set, `exit` returns a `WarnExitCodeError`
whose `ExitCode` equals `warnExitCode` — including `ExitCode 0` at the flag
default — not a distinct no-objects-passed code. -/
theorem exit_warn_no_passed (rc : ResultCounts) (w : Int)
    (hf : rc.Fail = 0) (he : rc.Error = 0) (hw : rc.Warn = 0 ∨ w = 0)
    (hp : rc.Pass = 0) :
    exit rc w true = some (ApplyError.warn ⟨w⟩) := by
  unfold exit
  rcases hw with hw | hw <;>
    rw [if_neg (by omega), if_neg (by omega), if_neg (by rintro ⟨hx, hy⟩; omega),
      if_pos (by simp [hp])]

/-- Witness for C10: the all-zero counters with the default warn exit code 0
yield a `WarnExitCodeError` with `ExitCode 0`. -/
theorem exit_warn_no_passed_witness :
    exit zeroCounts 0 true = some (ApplyError.warn ⟨0⟩) :=
  exit_warn_no_passed zeroCounts 0 rfl rfl (Or.inl rfl) rfl

/-- Claim C8: `ResourceSpec.String` joins APIVersion, Kind, Namespace and
Name with `/` in that order, the all-empty spec prints as `///`, and every
getter returns exactly the stored field. -/
theorem resourceSpec_string_getters (s : ResourceSpec) :
    s.string = s.APIVersion ++ "/" ++ s.Kind ++ "/" ++ s.Namespace ++ "/" ++ s.Name
    ∧ ResourceSpec.string ⟨"", "", "", "", ""⟩ = "///"
    ∧ s.GetName = s.Name
    ∧ s.GetNamespace = s.Namespace
    ∧ s.GetKind = s.Kind
    ∧ s.GetAPIVersion = s.APIVersion
    ∧ s.GetUID = s.UID :=
  ⟨rfl, rfl, rfl, rfl, rfl, rfl, rfl⟩

/-- Claim C9: `GetAnyAllConditions` returns nil when `RawAnyAllConditions`
is nil and otherwise the wrapped conditions; the function is total (the nil
check precedes the dereference). -/
theorem getAnyAllConditions_spec (r : TargetResourceSpec) :
    (r.RawAnyAllConditions = none → r.GetAnyAllConditions = none)
    ∧ (∀ w, r.RawAnyAllConditions = some w →
        r.GetAnyAllConditions = some w.value) := by
  constructor
  · intro h
    simp [TargetResourceSpec.GetAnyAllConditions, h]
  · intro w h
    simp [TargetResourceSpec.GetAnyAllConditions, h]

/-- Witness for C9: both shapes of `RawAnyAllConditions` evaluated. -/
theorem getAnyAllConditions_spec_witness :
    TargetResourceSpec.GetAnyAllConditions ⟨none⟩ = none
    ∧ TargetResourceSpec.GetAnyAllConditions ⟨some ⟨⟨"c"⟩⟩⟩ = some ⟨"c"⟩ :=
  ⟨(getAnyAllConditions_spec ⟨none⟩).1 rfl,
   (getAnyAllConditions_spec ⟨some ⟨⟨"c"⟩⟩⟩).2 ⟨⟨"c"⟩⟩ rfl⟩

/-- Claim C4: `checkArguments` errors iff a values file conflicts with set
variables, or no policy path is given, or both first paths are the stdin
marker, or no resource path is given off-cluster; no other input is
rejected, and on success every returned value is nil/empty. -/
theorem checkArguments_spec (c : ApplyCommandConfig) :
    ((checkArguments c).err.isSome ↔
      ((c.ValuesFile ≠ "" ∧ c.Variables.isSome)
        ∨ c.PolicyPaths = []
        ∨ (c.PolicyPaths ≠ [] ∧ c.PolicyPaths.headD "" = "-"
            ∧ c.ResourcePaths ≠ [] ∧ c.ResourcePaths.headD "" = "-")
        ∨ (c.ResourcePaths = [] ∧ ¬ c.Cluster)))
    ∧ ((checkArguments c).err = none →
        checkArguments c = ⟨none, none, ⟨[], []⟩, none, none⟩) := by
  unfold checkArguments
  constructor
  · split_ifs with h1 h2 h3 h4 <;>
      simp_all [List.length_eq_zero, List.length_pos]
  · intro h
    split_ifs at h ⊢
    simp_all

/-- Witness for C4: a well-formed configuration is accepted with all-empty
results, and an empty policy list is rejected. -/
theorem checkArguments_spec_witness :
    checkArguments ⟨"", none, ["p.yaml"], ["r.yaml"], false⟩
      = ⟨none, none, ⟨[], []⟩, none, none⟩
    ∧ (checkArguments ⟨"", none, [], [], false⟩).err.isSome :=
  ⟨(checkArguments_spec ⟨"", none, ["p.yaml"], ["r.yaml"], false⟩).2 (by decide),
   (checkArguments_spec ⟨"", none, [], [], false⟩).1.mpr (Or.inr (Or.inl rfl))⟩

/-- Claim C5: `applyPolicytoResource` starts from the zero-valued counters
declared locally at line 306 — never from state shared with another
invocation — so two runs on the same inputs produce the same counts.  In
this pure embedding the absence of shared state is structural: the result is
a function of the arguments alone, and both conjuncts hold definitionally. -/
theorem applyPolicytoResource_fresh_counts (continueOnFail : Bool)
    (validate : Policy → Option String)
    (proc : List Policy → ResultCounts → String →
      Except String (List EngineResponse) × ResultCounts)
    (policies : List Policy) (resources : List String)
    (skip : SkippedInvalidPolicies) :
    applyPolicytoResource continueOnFail validate proc policies resources skip
        = applyPolicytoResourceFrom zeroCounts continueOnFail validate proc
            policies resources skip
    ∧ (applyPolicytoResource continueOnFail validate proc policies resources skip).1
        = (applyPolicytoResource continueOnFail validate proc policies resources skip).1 :=
  ⟨rfl, rfl⟩

/-- A line printed for one rule appears in the mutate lines of any rule list
containing that rule. -/
theorem mem_mutateLines {pn rp : String} {rule : RuleResponse} :
    ∀ {rules : List RuleResponse}, rule ∈ rules →
      ∀ {x : String}, x ∈ mutateLine pn rp rule → x ∈ mutateLines pn rp rules := by
  intro rules
  induction rules with
  | nil => intro h; cases h
  | cons head tail ih =>
    intro hmem x hx
    rcases List.mem_cons.mp hmem with h | h
    · subst h
      exact List.mem_append.mpr (Or.inl hx)
    · exact List.mem_append.mpr (Or.inr (ih h hx))

/-- Every rule of a list owns a numbered line among the failed-rule lines,
whatever the starting index. -/
theorem mem_failLines (rule : RuleResponse) :
    ∀ (l : List RuleResponse) (k : Nat), rule ∈ l →
      ∃ i, (toString (i + 1) ++ " - " ++ rule.name ++ " " ++ rule.message)
        ∈ failLines k l
  | [], _, h => absurd h (List.not_mem_nil _)
  | head :: tail, k, h => by
    rcases List.mem_cons.mp h with h1 | h1
    · subst h1
      exact ⟨k, List.mem_cons_self _ _⟩
    · obtain ⟨i, hi⟩ := mem_failLines rule tail (k + 1) h1
      exact ⟨i, List.mem_cons_of_mem _ hi⟩

/-- Shape of the default output when some rule failed: the mutate notices,
then the header, the numbered failed rules and a blank line. -/
theorem printResponse_eq_of_failed (auditWarn : Bool) (response : EngineResponse)
    (h : (failedRules response).length > 0) :
    printResponse auditWarn response =
      mutateLines response.policyName (resPath response) response.rules ++
        (((if auditWarn && response.validationFailureAction.Audit then
            "policy " ++ response.policyName ++ " -> resource " ++
              resPath response ++ " failed as audit warning:"
          else
            "policy " ++ response.policyName ++ " -> resource " ++
              resPath response ++ " failed:") ::
          failLines 0 (failedRules response)) ++ [""]) := by
  unfold printResponse
  dsimp only
  rw [if_pos h]

/-- Shape of the default output without the failed block: only the mutate
notices. -/
theorem printResponse_eq_of_not_failed (auditWarn : Bool)
    (response : EngineResponse) (h : ¬ (failedRules response).length > 0) :
    printResponse auditWarn response =
      mutateLines response.policyName (resPath response) response.rules := by
  unfold printResponse
  dsimp only
  rw [if_neg h, List.append_nil]

/-- Claim C7: in the default output mode, every Fail rule response is
printed with its policy name and `namespace/kind/name` resource path (in the
block header) and its rule name and message (in a numbered line); a mutation
rule in Error is printed with its error message, and one in Skip is reported
as skipped. -/
theorem default_output_spec (auditWarn : Bool) (response : EngineResponse)
    (rule : RuleResponse) (hmem : rule ∈ response.rules) :
    (rule.status = RuleStatus.fail →
      ((if auditWarn && response.validationFailureAction.Audit then
          "policy " ++ response.policyName ++ " -> resource " ++
            resPath response ++ " failed as audit warning:"
        else
          "policy " ++ response.policyName ++ " -> resource " ++
            resPath response ++ " failed:")
          ∈ printResponse auditWarn response
        ∧ ∃ i, (toString (i + 1) ++ " - " ++ rule.name ++ " " ++ rule.message)
            ∈ printResponse auditWarn response))
    ∧ (rule.ruleType = RuleType.mutation → rule.status = RuleStatus.error →
        ("\nerror while applying mutate policy " ++ response.policyName ++
          " -> resource " ++ resPath response ++ " \nerror:  " ++ rule.message)
          ∈ printResponse auditWarn response)
    ∧ (rule.ruleType = RuleType.mutation → rule.status = RuleStatus.skip →
        ("\nskipped mutate policy " ++ response.policyName ++ " -> resource " ++
          resPath response) ∈ printResponse auditWarn response) := by
  refine ⟨?_, ?_, ?_⟩
  · intro hfail
    have hfmem : rule ∈ failedRules response :=
      List.mem_filter.mpr ⟨hmem, by simp [hfail]⟩
    have hlen : (failedRules response).length > 0 :=
      List.length_pos.mpr (List.ne_nil_of_mem hfmem)
    rw [printResponse_eq_of_failed auditWarn response hlen]
    constructor
    · exact List.mem_append.mpr (Or.inr (List.mem_append.mpr
        (Or.inl (List.mem_cons_self _ _))))
    · obtain ⟨i, hi⟩ := mem_failLines rule (failedRules response) 0 hfmem
      exact ⟨i, List.mem_append.mpr (Or.inr (List.mem_append.mpr
        (Or.inl (List.mem_cons_of_mem _ hi))))⟩
  · intro hmut herr
    have hx : ("\nerror while applying mutate policy " ++ response.policyName ++
        " -> resource " ++ resPath response ++ " \nerror:  " ++ rule.message)
        ∈ mutateLine response.policyName (resPath response) rule := by
      simp [mutateLine, hmut, herr]
    have hy := mem_mutateLines hmem hx
    unfold printResponse
    exact List.mem_append.mpr (Or.inl hy)
  · intro hmut hskip
    have hx : ("\nskipped mutate policy " ++ response.policyName ++
        " -> resource " ++ resPath response)
        ∈ mutateLine response.policyName (resPath response) rule := by
      simp [mutateLine, hmut, hskip]
    have hy := mem_mutateLines hmem hx
    unfold printResponse
    exact List.mem_append.mpr (Or.inl hy)

/-- Witness for C7: a response with one failed validation rule, one mutation
rule in error and one skipped mutation rule produces all three kinds of
output. -/
theorem default_output_spec_witness :
    (∃ i, (toString (i + 1) ++ " - " ++ "v1" ++ " " ++ "bad")
      ∈ printResponse false ⟨"ns", "Pod", "p1", "pol",
          ValidationFailureAction.enforce,
          [⟨"v1", RuleType.validation, "bad", RuleStatus.fail⟩,
           ⟨"m1", RuleType.mutation, "boom", RuleStatus.error⟩,
           ⟨"m2", RuleType.mutation, "", RuleStatus.skip⟩]⟩)
    ∧ ("\nerror while applying mutate policy " ++ "pol" ++ " -> resource " ++
        resPath ⟨"ns", "Pod", "p1", "pol", ValidationFailureAction.enforce,
          [⟨"v1", RuleType.validation, "bad", RuleStatus.fail⟩,
           ⟨"m1", RuleType.mutation, "boom", RuleStatus.error⟩,
           ⟨"m2", RuleType.mutation, "", RuleStatus.skip⟩]⟩ ++
        " \nerror:  " ++ "boom")
      ∈ printResponse false ⟨"ns", "Pod", "p1", "pol",
          ValidationFailureAction.enforce,
          [⟨"v1", RuleType.validation, "bad", RuleStatus.fail⟩,
           ⟨"m1", RuleType.mutation, "boom", RuleStatus.error⟩,
           ⟨"m2", RuleType.mutation, "", RuleStatus.skip⟩]⟩
    ∧ ("\nskipped mutate policy " ++ "pol" ++ " -> resource " ++
        resPath ⟨"ns", "Pod", "p1", "pol", ValidationFailureAction.enforce,
          [⟨"v1", RuleType.validation, "bad", RuleStatus.fail⟩,
           ⟨"m1", RuleType.mutation, "boom", RuleStatus.error⟩,
           ⟨"m2", RuleType.mutation, "", RuleStatus.skip⟩]⟩)
      ∈ printResponse false ⟨"ns", "Pod", "p1", "pol",
          ValidationFailureAction.enforce,
          [⟨"v1", RuleType.validation, "bad", RuleStatus.fail⟩,
           ⟨"m1", RuleType.mutation, "boom", RuleStatus.error⟩,
           ⟨"m2", RuleType.mutation, "", RuleStatus.skip⟩]⟩ :=
  ⟨((default_output_spec false _
      ⟨"v1", RuleType.validation, "bad", RuleStatus.fail⟩ (by simp)).1 rfl).2,
   (default_output_spec false _
      ⟨"m1", RuleType.mutation, "boom", RuleStatus.error⟩ (by simp)).2.1 rfl rfl,
   (default_output_spec false _
      ⟨"m2", RuleType.mutation, "", RuleStatus.skip⟩ (by simp)).2.2 rfl rfl⟩

/-- Claim C6: with the audit-warn option on and an Audit validation-failure
action, a failing rule is reported under the audit-warning header, while the
rule's status remains Fail and the rule is still collected among the failed
rules (which are exactly the Fail-status rules of the response). -/
theorem audit_warn_reporting (response : EngineResponse) (rule : RuleResponse)
    (hmem : rule ∈ response.rules) (hfail : rule.status = RuleStatus.fail)
    (haudit : response.validationFailureAction = ValidationFailureAction.audit) :
    ("policy " ++ response.policyName ++ " -> resource " ++ resPath response ++
        " failed as audit warning:") ∈ printResponse true response
    ∧ rule ∈ failedRules response
    ∧ (∀ x, x ∈ failedRules response ↔
        (x ∈ response.rules ∧ x.status = RuleStatus.fail)) := by
  have hfmem : rule ∈ failedRules response :=
    List.mem_filter.mpr ⟨hmem, by simp [hfail]⟩
  have hlen : (failedRules response).length > 0 :=
    List.length_pos.mpr (List.ne_nil_of_mem hfmem)
  refine ⟨?_, hfmem, ?_⟩
  · rw [printResponse_eq_of_failed true response hlen]
    rw [haudit]
    exact List.mem_append.mpr (Or.inr (List.mem_append.mpr
      (Or.inl (List.mem_cons_self _ _))))
  · intro x
    constructor
    · intro hx
      obtain ⟨h1, h2⟩ := List.mem_filter.mp hx
      exact ⟨h1, by simpa using h2⟩
    · intro hx
      exact List.mem_filter.mpr ⟨hx.1, by simp [hx.2]⟩

/-- Witness for C6: a concrete Audit response with one failing rule. -/
theorem audit_warn_reporting_witness :
    ("policy " ++ "pol" ++ " -> resource " ++
        resPath ⟨"ns", "Pod", "p1", "pol", ValidationFailureAction.audit,
          [⟨"v1", RuleType.validation, "bad", RuleStatus.fail⟩]⟩ ++
        " failed as audit warning:")
      ∈ printResponse true ⟨"ns", "Pod", "p1", "pol",
          ValidationFailureAction.audit,
          [⟨"v1", RuleType.validation, "bad", RuleStatus.fail⟩]⟩
    ∧ (⟨"v1", RuleType.validation, "bad", RuleStatus.fail⟩ : RuleResponse)
        ∈ failedRules ⟨"ns", "Pod", "p1", "pol", ValidationFailureAction.audit,
            [⟨"v1", RuleType.validation, "bad", RuleStatus.fail⟩]⟩ :=
  ⟨(audit_warn_reporting _ ⟨"v1", RuleType.validation, "bad", RuleStatus.fail⟩
      (by simp) rfl rfl).1,
   (audit_warn_reporting _ ⟨"v1", RuleType.validation, "bad", RuleStatus.fail⟩
      (by simp) rfl rfl).2.1⟩

/-- With continue-on-fail the per-resource loop never aborts: it returns the
collected responses of every successful resource and no error. -/
theorem applyLoopRc_continue
    (procv : ResultCounts → String →
      Except String (List EngineResponse) × ResultCounts) :
    ∀ (resources : List String) (rc : ResultCounts) (acc : List EngineResponse),
      applyLoopRc true procv rc acc resources
        = ((collectRc procv rc resources).1,
            acc ++ (collectRc procv rc resources).2, none) := by
  intro resources
  induction resources with
  | nil =>
    intro rc acc
    simp [applyLoopRc, collectRc]
  | cons r rest ih =>
    intro rc acc
    cases h : procv rc r with
    | mk res rc1 =>
      cases res with
      | error e =>
        simp only [applyLoopRc, collectRc, h]
        rw [ih]
        simp
      | ok ers =>
        simp only [applyLoopRc, collectRc, h]
        rw [ih]
        simp [List.append_assoc]

/-- Claim C2, counterexample: with `ContinueOnFail` at its default `false`,
an error on the first resource aborts `applyPolicytoResource`; the second
resource, whose application would succeed with a response, contributes no
response to the result. -/
theorem applyPolicytoResource_abort_cex :
    applyPolicytoResource false (fun _ => none)
        (fun _ rc r =>
          (if r = "a" then Except.error "boom"
            else Except.ok [⟨"ns", "Pod", "b1", "pol",
              ValidationFailureAction.enforce, []⟩], rc))
        [] ["a", "b"] ⟨[], []⟩
      = (zeroCounts, [], some "boom", ⟨[], []⟩)
    ∧ (if ("b" : String) = "a" then
          (Except.error "boom" : Except String (List EngineResponse))
        else Except.ok [⟨"ns", "Pod", "b1", "pol",
          ValidationFailureAction.enforce, []⟩])
      = Except.ok [⟨"ns", "Pod", "b1", "pol",
          ValidationFailureAction.enforce, []⟩] :=
  ⟨rfl, rfl⟩

/-- Claim C2, amended: only when `ContinueOnFail` is true does an error
while applying policies to one resource never prevent evaluation of the
remaining resources — the loop then returns no error and the responses of
every resource whose application succeeds, in order; with `ContinueOnFail`
false (the default) the first error aborts the loop. -/
theorem applyPolicytoResource_continue_spec
    (validate : Policy → Option String)
    (proc : List Policy → ResultCounts → String →
      Except String (List EngineResponse) × ResultCounts)
    (policies : List Policy) (resources : List String)
    (skip : SkippedInvalidPolicies) :
    (applyPolicytoResource true validate proc policies resources skip).2.2.1 = none
    ∧ (applyPolicytoResource true validate proc policies resources skip).2.1
        = (collectRc (proc (validateLoop validate [] policies zeroCounts skip).1)
            (validateLoop validate [] policies zeroCounts skip).2.1 resources).2 := by
  have h := applyLoopRc_continue
    (proc (validateLoop validate [] policies zeroCounts skip).1)
    resources (validateLoop validate [] policies zeroCounts skip).2.1 []
  constructor <;>
    simp [applyPolicytoResource, applyPolicytoResourceFrom, h]

/-- The valid-policy output of the validation loop: the input policies that
pass validation, appended to the accumulator, in order. -/
theorem validateLoop_valid (validate : Policy → Option String) :
    ∀ (policies acc : List Policy) (rc : ResultCounts)
      (skip : SkippedInvalidPolicies),
      (validateLoop validate acc policies rc skip).1
        = acc ++ policies.filter (fun p => (validate p).isNone) := by
  intro policies
  induction policies with
  | nil =>
    intro acc rc skip
    simp [validateLoop]
  | cons pol rest ih =>
    intro acc rc skip
    cases h : validate pol with
    | some e =>
      simp only [validateLoop, h]
      rw [ih]
      simp [List.filter_cons, h]
    | none =>
      simp only [validateLoop, h]
      rw [ih]
      simp [List.filter_cons, h, List.append_assoc]

/-- The error counter after the validation loop: one increment per failing
policy. -/
theorem validateLoop_error (validate : Policy → Option String) :
    ∀ (policies acc : List Policy) (rc : ResultCounts)
      (skip : SkippedInvalidPolicies),
      (validateLoop validate acc policies rc skip).2.1.Error
        = rc.Error + policies.countP (fun p => (validate p).isSome) := by
  intro policies
  induction policies with
  | nil =>
    intro acc rc skip
    simp [validateLoop]
  | cons pol rest ih =>
    intro acc rc skip
    cases h : validate pol with
    | some e =>
      simp only [validateLoop, h]
      rw [ih]
      simp [ResultCounts.IncrementError, List.countP_cons, h]
      omega
    | none =>
      simp only [validateLoop, h]
      rw [ih]
      simp [List.countP_cons, h]

/-- The skipped/invalid name lists only grow through the validation loop. -/
theorem validateLoop_mono (validate : Policy → Option String) :
    ∀ (policies acc : List Policy) (rc : ResultCounts)
      (skip : SkippedInvalidPolicies) (x : String),
      (x ∈ skip.skipped →
        x ∈ (validateLoop validate acc policies rc skip).2.2.skipped)
      ∧ (x ∈ skip.invalid →
        x ∈ (validateLoop validate acc policies rc skip).2.2.invalid) := by
  intro policies
  induction policies with
  | nil =>
    intro acc rc skip x
    simp [validateLoop]
  | cons pol rest ih =>
    intro acc rc skip x
    cases h : validate pol with
    | some e =>
      simp only [validateLoop, h]
      by_cases hpre : strHasPrefix e elementNameVariableMsg
      · rw [if_pos hpre]
        refine ⟨fun hx => ?_, fun hx => ?_⟩
        · exact (ih acc _ _ x).1 hx
        · exact (ih acc _ _ x).2 (List.mem_append.mpr (Or.inl hx))
      · rw [if_neg hpre]
        refine ⟨fun hx => ?_, fun hx => ?_⟩
        · exact (ih acc _ _ x).1 (List.mem_append.mpr (Or.inl hx))
        · exact (ih acc _ _ x).2 hx
    | none =>
      simp only [validateLoop, h]
      exact ih (acc ++ [pol]) rc skip x

/-- Every failing policy's name is recorded in the skipped or invalid
list. -/
theorem validateLoop_records (validate : Policy → Option String) :
    ∀ (policies acc : List Policy) (rc : ResultCounts)
      (skip : SkippedInvalidPolicies) (p : Policy),
      p ∈ policies → (validate p).isSome →
        p.name ∈ (validateLoop validate acc policies rc skip).2.2.skipped
        ∨ p.name ∈ (validateLoop validate acc policies rc skip).2.2.invalid := by
  intro policies
  induction policies with
  | nil =>
    intro acc rc skip p hp
    cases hp
  | cons pol rest ih =>
    intro acc rc skip p hp hsome
    rcases List.mem_cons.mp hp with h1 | h1
    · subst h1
      cases h : validate p with
      | none => simp [h] at hsome
      | some e =>
        simp only [validateLoop, h]
        by_cases hpre : strHasPrefix e elementNameVariableMsg
        · rw [if_pos hpre]
          refine Or.inr ((validateLoop_mono validate rest acc _ _ p.name).2 ?_)
          exact List.mem_append.mpr (Or.inr (List.mem_singleton.mpr rfl))
        · rw [if_neg hpre]
          refine Or.inl ((validateLoop_mono validate rest acc _ _ p.name).1 ?_)
          exact List.mem_append.mpr (Or.inr (List.mem_singleton.mpr rfl))
    · cases h : validate pol with
      | some e =>
        simp only [validateLoop, h]
        by_cases hpre : strHasPrefix e elementNameVariableMsg
        · rw [if_pos hpre]
          exact ih acc _ _ p h1 hsome
        · rw [if_neg hpre]
          exact ih acc _ _ p h1 hsome
      | none =>
        simp only [validateLoop, h]
        exact ih (acc ++ [pol]) rc skip p h1 hsome

/-- Claim C3: a policy failing load-time validation is excluded from the
valid set and recorded in the skipped or invalid list, with the error
counter incremented once per failure; every other policy remains in the
valid set handed to the processor for every resource; and a policy path
whose load fails is skipped without aborting the loading of the other
paths. -/
theorem policy_load_validation_isolation
    (validate : Policy → Option String)
    (load : String → Except String (List Policy))
    (policies : List Policy) (rc : ResultCounts)
    (skip : SkippedInvalidPolicies) :
    (validateLoop validate [] policies rc skip).1
        = policies.filter (fun p => (validate p).isNone)
    ∧ (validateLoop validate [] policies rc skip).2.1.Error
        = rc.Error + policies.countP (fun p => (validate p).isSome)
    ∧ (∀ p, p ∈ policies → (validate p).isSome →
        p.name ∈ (validateLoop validate [] policies rc skip).2.2.skipped
        ∨ p.name ∈ (validateLoop validate [] policies rc skip).2.2.invalid)
    ∧ (∀ (cof : Bool)
        (proc : List Policy → ResultCounts → String →
          Except String (List EngineResponse) × ResultCounts)
        (resources : List String) (skip0 : SkippedInvalidPolicies),
        applyPolicytoResource cof validate proc policies resources skip0
          = ((applyLoopRc cof
                (proc (policies.filter (fun p => (validate p).isNone)))
                (validateLoop validate [] policies zeroCounts skip0).2.1
                [] resources).1,
              (applyLoopRc cof
                (proc (policies.filter (fun p => (validate p).isNone)))
                (validateLoop validate [] policies zeroCounts skip0).2.1
                [] resources).2.1,
              (applyLoopRc cof
                (proc (policies.filter (fun p => (validate p).isNone)))
                (validateLoop validate [] policies zeroCounts skip0).2.1
                [] resources).2.2,
              (validateLoop validate [] policies zeroCounts skip0).2.2))
    ∧ (∀ (path : String) (rest : List String) (e : String),
        load path = Except.error e →
          loadPolicies load (path :: rest) = loadPolicies load rest) := by
  refine ⟨?_, ?_, ?_, ?_, ?_⟩
  · rw [validateLoop_valid]
    simp
  · exact validateLoop_error validate policies [] rc skip
  · intro p hp hsome
    exact validateLoop_records validate policies [] rc skip p hp hsome
  · intro cof proc resources skip0
    simp only [applyPolicytoResource, applyPolicytoResourceFrom]
    rw [validateLoop_valid]
    simp
  · intro path rest e h
    simp [loadPolicies, h]

/-- Witness for C3: one valid and one invalid policy, and a load failure on
the first of two paths. -/
theorem policy_load_validation_isolation_witness :
    (validateLoop (fun p => if p.name = "bad" then some "oops" else none) []
        [⟨"good"⟩, ⟨"bad"⟩] zeroCounts ⟨[], []⟩).1 = [⟨"good"⟩]
    ∧ (validateLoop (fun p => if p.name = "bad" then some "oops" else none) []
        [⟨"good"⟩, ⟨"bad"⟩] zeroCounts ⟨[], []⟩).2.1.Error = 1
    ∧ ((⟨"bad"⟩ : Policy).name
        ∈ (validateLoop (fun p => if p.name = "bad" then some "oops" else none)
            [] [⟨"good"⟩, ⟨"bad"⟩] zeroCounts ⟨[], []⟩).2.2.skipped
      ∨ (⟨"bad"⟩ : Policy).name
        ∈ (validateLoop (fun p => if p.name = "bad" then some "oops" else none)
            [] [⟨"good"⟩, ⟨"bad"⟩] zeroCounts ⟨[], []⟩).2.2.invalid)
    ∧ loadPolicies
        (fun path => if path = "x" then Except.error "e"
          else Except.ok [⟨"good"⟩]) ["x", "y"]
      = loadPolicies
          (fun path => if path = "x" then Except.error "e"
            else Except.ok [⟨"good"⟩]) ["y"] :=
  ⟨(policy_load_validation_isolation
      (fun p => if p.name = "bad" then some "oops" else none)
      (fun path => if path = "x" then Except.error "e" else Except.ok [⟨"good"⟩])
      [⟨"good"⟩, ⟨"bad"⟩] zeroCounts ⟨[], []⟩).1,
   (policy_load_validation_isolation
      (fun p => if p.name = "bad" then some "oops" else none)
      (fun path => if path = "x" then Except.error "e" else Except.ok [⟨"good"⟩])
      [⟨"good"⟩, ⟨"bad"⟩] zeroCounts ⟨[], []⟩).2.1,
   (policy_load_validation_isolation
      (fun p => if p.name = "bad" then some "oops" else none)
      (fun path => if path = "x" then Except.error "e" else Except.ok [⟨"good"⟩])
      [⟨"good"⟩, ⟨"bad"⟩] zeroCounts ⟨[], []⟩).2.2.1 ⟨"bad"⟩ (by simp) (by decide),
   (policy_load_validation_isolation
      (fun p => if p.name = "bad" then some "oops" else none)
      (fun path => if path = "x" then Except.error "e" else Except.ok [⟨"good"⟩])
      [⟨"good"⟩, ⟨"bad"⟩] zeroCounts ⟨[], []⟩).2.2.2.2 "x" ["y"] "e" rfl⟩

end Kyverno
